import Mathlib

/-!
Shallow embedding of `scripts/migrate_data.py` (MySQL → PostgreSQL data
migration script).  The embedding models the externally observable behaviour
of `DataMigrator`: the list of operations issued to the destination database
(the trace), the destination table's committed and pending (in-transaction)
row lists, and the run statistics.  Exceptions raised by individual database
operations are modelled by a `Faults` record saying which operation raises;
the Python `try`/`except` structure is translated into explicit control flow.
-/

namespace MigrateData

/-- Database cell values, as they appear in a fetched MySQL row:
`None`, `bytes`, `str`, numbers, `datetime`. -/
inductive Val where
  | vnull
  | vbytes (b : List Nat)
  | vstr (s : String)
  | vint (n : Int)
  | vtime (t : Int)
deriving DecidableEq

/-- A row is an ordered tuple of column values (Python `tuple`). -/
abbrev Row := List Val

/-- Operations issued on the PostgreSQL (destination) connection.
`existsQuery` is the catalog read at lines 265-274; all others are writes. -/
inductive PgOp where
  | existsQuery (table : String)
  | disableTriggers (table : String)
  | enableTriggers (table : String)
  | insert (table : String) (r : Row)
  | commit
  | rollback
  | setval (table : String) (pk : String)
deriving DecidableEq

/-- State of the destination connection: rows made durable by `commit`,
rows visible inside the current transaction, and the operation trace. -/
structure PgState where
  committed : List Row
  pending : List Row
  trace : List PgOp
deriving DecidableEq

/-- The `self.stats` dictionary initialised in `DataMigrator.__init__`. -/
structure Stats where
  tables_migrated : Nat
  tables_skipped : Nat
  total_rows : Nat
  failed_tables : List String
deriving DecidableEq

/-- Result of `get_table_info` for one source table: column list,
primary-key columns, and the rows in the source's stable pagination order
(`row_count` is the length of `rows`, as returned by `COUNT(*)`). -/
structure SourceTable where
  columns : List String
  primary_keys : List String
  rows : List Row

/-- Constructor arguments of `DataMigrator` that drive `migrate_table`. -/
structure Config where
  batch_size : Nat
  dry_run : Bool

/-- Fault model: which database operations raise an exception.  Per-row
insert failures (`insertFails`) are caught by the inner `try` at lines
315-322; every other failure propagates to the outer handler at line 348.
A failing operation performs no write and is not recorded in the trace. -/
structure Faults where
  infoFails : Bool
  existsFails : Bool
  disableFails : Bool
  fetchFails : Nat → Bool
  insertFails : Row → Bool
  commitFails : Nat → Bool
  enableFails : Bool
  setvalFails : String → Bool

/-- The fault-free execution. -/
def noFaults : Faults :=
  { infoFails := false
    existsFails := false
    disableFails := false
    fetchFails := fun _ => false
    insertFails := fun _ => false
    commitFails := fun _ => false
    enableFails := false
    setvalFails := fun _ => false }

/-- Per-value conversion inside `convert_row_data` (lines 358-371):
`None` passes through, `bytes` is decoded as UTF-8 with fallback to the raw
bytes, `datetime` passes through, everything else passes through.  `decode`
stands for Python's `bytes.decode("utf-8")` (`none` = `UnicodeDecodeError`). -/
def convertVal (decode : List Nat → Option String) (value : Val) : Val :=
  match value with
  | Val.vnull => Val.vnull
  | Val.vbytes b =>
    match decode b with
    | some s => Val.vstr s
    | none => Val.vbytes b
  | Val.vtime t => Val.vtime t
  | v => v

/-- `DataMigrator.convert_row_data` (lines 355-372): builds the converted
list by appending one converted value per input value. -/
def convert_row_data (decode : List Nat → Option String) (row : List Val) : List Val :=
  row.foldl (fun converted value => converted ++ [convertVal decode value]) []

/-- Effect of `INSERT ... ON CONFLICT DO NOTHING` (lines 309-313) on the
visible row list: a row whose key (under the destination uniqueness
constraint `k`) is already present is silently discarded. -/
def insertCI (k : Row → Row) (rows : List Row) (r : Row) : List Row :=
  if rows.any (fun s => k s == k r) then rows else rows ++ [r]

/-- One batch's per-row insert loop (lines 315-322): each row is converted
and inserted; a row whose insert raises is logged and skipped (`continue`). -/
def insertBatch (decode : List Nat → Option String) (k : Row → Row) (f : Faults)
    (table_name : String) (pg : PgState) (batch : List Row) : PgState :=
  batch.foldl
    (fun s row =>
      if f.insertFails row then s
      else
        { s with
          pending := insertCI k s.pending (convert_row_data decode row)
          trace := s.trace ++ [PgOp.insert table_name (convert_row_data decode row)] })
    pg

/-- The `while offset < row_count` batching loop of `migrate_table`
(lines 289-334).  `fuel` bounds the number of iterations; `migrate_table`
passes `row_count + 1`, which is always sufficient because each iteration
either breaks on an empty batch or advances `offset` by at least one
(`LIMIT 0` returns no rows, triggering the break).  `Except.error` models an
exception propagating out of the loop, carrying the connection state at the
point of the raise. -/
def batchLoop (decode : List Nat → Option String) (k : Row → Row) (f : Faults)
    (table_name : String) (bs : Nat) (srcRows : List Row) (row_count : Nat) :
    Nat → Nat → Nat → Nat → PgState → Except PgState (Nat × PgState)
  | 0, _, migrated_rows, _, pg => Except.ok (migrated_rows, pg)
  | fuel + 1, offset, migrated_rows, batchIdx, pg =>
    if offset < row_count then
      if f.fetchFails batchIdx then Except.error pg
      else
        let rows := (srcRows.drop offset).take bs
        if rows.isEmpty then Except.ok (migrated_rows, pg)
        else
          let pg1 := insertBatch decode k f table_name pg rows
          if f.commitFails batchIdx then Except.error pg1
          else
            let pg2 : PgState :=
              { committed := pg1.pending, pending := pg1.pending
                trace := pg1.trace ++ [PgOp.commit] }
            batchLoop decode k f table_name bs srcRows row_count
              fuel (offset + bs) (migrated_rows + rows.length) (batchIdx + 1) pg2
    else Except.ok (migrated_rows, pg)

/-- `DataMigrator.update_sequences` (lines 374-397): returns immediately when
there are no primary keys or in dry-run mode; otherwise issues one `setval`
per primary key, each inside a `try`/`except` that swallows failures. -/
def update_sequences (f : Faults) (cfg : Config) (table_name : String)
    (primary_keys : List String) (pg : PgState) : PgState :=
  if primary_keys.isEmpty || cfg.dry_run then pg
  else
    primary_keys.foldl
      (fun s pk =>
        if f.setvalFails pk then s
        else { s with trace := s.trace ++ [PgOp.setval table_name pk] })
      pg

/-- `DataMigrator.migrate_table` (lines 240-353).  Returns the Python return
value, the updated statistics, and the destination connection state.
`destPresent` is the value the catalog existence check would report.  The
outer `except` handler (lines 348-353) appends the table to `failed_tables`
and, outside dry-run mode, rolls back the current transaction. -/
def migrate_table (decode : List Nat → Option String) (k : Row → Row) (f : Faults)
    (cfg : Config) (table_name : String) (src : SourceTable) (destPresent : Bool)
    (pg : PgState) (st : Stats) : Bool × Stats × PgState :=
  let onError := fun (pgE : PgState) =>
    let stE := { st with failed_tables := st.failed_tables ++ [table_name] }
    let pgE' :=
      if cfg.dry_run then pgE
      else { pgE with pending := pgE.committed, trace := pgE.trace ++ [PgOp.rollback] }
    (false, stE, pgE')
  if f.infoFails then onError pg
  else
    let row_count := src.rows.length
    if row_count = 0 then
      (true, { st with tables_skipped := st.tables_skipped + 1 }, pg)
    else if cfg.dry_run then
      (true,
       { st with
         tables_migrated := st.tables_migrated + 1
         total_rows := st.total_rows + row_count },
       pg)
    else if f.existsFails then onError pg
    else
      let pg := { pg with trace := pg.trace ++ [PgOp.existsQuery table_name] }
      if !destPresent then
        (false, { st with tables_skipped := st.tables_skipped + 1 }, pg)
      else if f.disableFails then onError pg
      else
        let pg := { pg with trace := pg.trace ++ [PgOp.disableTriggers table_name] }
        match batchLoop decode k f table_name cfg.batch_size src.rows row_count
            (row_count + 1) 0 0 0 pg with
        | Except.error pgE => onError pgE
        | Except.ok (migrated_rows, pg) =>
          if f.enableFails then onError pg
          else
            let pg := { pg with trace := pg.trace ++ [PgOp.enableTriggers table_name] }
            let pg := update_sequences f cfg table_name src.primary_keys pg
            (true,
             { st with
               tables_migrated := st.tables_migrated + 1
               total_rows := st.total_rows + migrated_rows },
             pg)

/-- One source table as `DataMigrator.run` sees it. -/
structure TableJob where
  name : String
  src : SourceTable
  destPresent : Bool

/-- The per-table loop of `DataMigrator.run` (lines 431-433): the return
value of `migrate_table` is ignored and every table is processed. -/
def runTables (decode : List Nat → Option String) (k : Row → Row) (f : Faults)
    (cfg : Config) (jobs : List TableJob) (pg : PgState) (st : Stats) :
    PgState × Stats :=
  jobs.foldl
    (fun acc job =>
      let r := migrate_table decode k f cfg job.name job.src job.destPresent acc.1 acc.2
      (r.2.2, r.2.1))
    (pg, st)

/-- The Django system tables always excluded (lines 197-201). -/
def system_tables : List String :=
  ["django_migrations", "django_session", "django_admin_log"]

/-- `DataMigrator.get_tables` (lines 165-205): `all_tables` is the result of
the catalog query ordered by table name.  Python's `if include_tables:` and
`if exclude_tables:` treat an empty list like `None`. -/
def get_tables (all_tables : List String)
    (include_tables exclude_tables : Option (List String)) : List String :=
  let tables :=
    match include_tables with
    | some inc => if inc.isEmpty then all_tables else all_tables.filter (fun t => inc.contains t)
    | none => all_tables
  let tables :=
    match exclude_tables with
    | some exc => if exc.isEmpty then tables else tables.filter (fun t => !exc.contains t)
    | none => tables
  tables.filter (fun t => !system_tables.contains t)

/-! Concrete example inputs used by witnesses and counterexamples. -/

/-- Example decoder: every byte string fails to decode. -/
def exDecode : List Nat → Option String := fun _ => none

/-- Example uniqueness key: the first column. -/
def exKey : Row → Row := fun r => r.take 1

/-- Example row `(1, "a")`. -/
def exRow1 : Row := [Val.vint 1, Val.vstr "a"]

/-- Example row `(2, "b")`. -/
def exRow2 : Row := [Val.vint 2, Val.vstr "b"]

/-- Example source table with two rows. -/
def exSrc : SourceTable :=
  { columns := ["id", "name"], primary_keys := ["id"], rows := [exRow1, exRow2] }

/-- Example initial destination state: empty table, clean transaction. -/
def exPg : PgState := { committed := [], pending := [], trace := [] }

/-- Example initial statistics. -/
def exSt : Stats :=
  { tables_migrated := 0, tables_skipped := 0, total_rows := 0, failed_tables := [] }

/-- Fault scenario: the commit of the first batch raises. -/
def exFaultCommit : Faults := { noFaults with commitFails := fun i => i == 0 }

/-- Fault scenario: the insert of `exRow2` raises (caught per-row). -/
def exFaultIns : Faults := { noFaults with insertFails := fun r => r == exRow2 }

/-- Example source table with no rows. -/
def exSrcEmpty : SourceTable :=
  { columns := ["id", "name"], primary_keys := ["id"], rows := [] }

/-! Helper lemmas. -/

lemma convert_row_data_eq_map (decode : List Nat → Option String) (row : List Val) :
    convert_row_data decode row = row.map (convertVal decode) := by
  suffices h : ∀ acc : List Val,
      row.foldl (fun converted value => converted ++ [convertVal decode value]) acc =
        acc ++ row.map (convertVal decode) by
    simpa using h []
  induction row with
  | nil => intro acc; simp
  | cons v vs ih => intro acc; simp [ih]

lemma noFaults_infoFails : noFaults.infoFails = false := rfl

lemma noFaults_existsFails : noFaults.existsFails = false := rfl

lemma noFaults_disableFails : noFaults.disableFails = false := rfl

lemma noFaults_fetchFails (i : Nat) : noFaults.fetchFails i = false := rfl

lemma noFaults_insertFails (r : Row) : noFaults.insertFails r = false := rfl

lemma noFaults_commitFails (i : Nat) : noFaults.commitFails i = false := rfl

lemma noFaults_enableFails : noFaults.enableFails = false := rfl

lemma noFaults_setvalFails (pk : String) : noFaults.setvalFails pk = false := rfl

lemma insertBatch_committed (decode : List Nat → Option String) (k : Row → Row)
    (f : Faults) (t : String) :
    ∀ (batch : List Row) (pg : PgState),
      (insertBatch decode k f t pg batch).committed = pg.committed := by
  intro batch
  simp only [insertBatch]
  induction batch with
  | nil => intro pg; rfl
  | cons r rs ih =>
    intro pg
    rw [List.foldl_cons, ih]
    split <;> rfl

lemma insertBatch_pending_noFaults (decode : List Nat → Option String) (k : Row → Row)
    (t : String) :
    ∀ (batch : List Row) (pg : PgState),
      (insertBatch decode k noFaults t pg batch).pending =
        batch.foldl (fun D row => insertCI k D (convert_row_data decode row)) pg.pending := by
  intro batch
  simp only [insertBatch, noFaults_insertFails, Bool.false_eq_true, if_false]
  induction batch with
  | nil => intro pg; rfl
  | cons r rs ih =>
    intro pg
    rw [List.foldl_cons, List.foldl_cons, ih]

lemma insertBatch_trace (decode : List Nat → Option String) (k : Row → Row)
    (f : Faults) (t : String) :
    ∀ (batch : List Row) (pg : PgState),
      ∃ tr, (insertBatch decode k f t pg batch).trace = pg.trace ++ tr := by
  intro batch
  simp only [insertBatch]
  induction batch with
  | nil => intro pg; exact ⟨[], by simp⟩
  | cons r rs ih =>
    intro pg
    rw [List.foldl_cons]
    split
    · exact ih pg
    · obtain ⟨tr, htr⟩ :=
        ih { pg with
              pending := insertCI k pg.pending (convert_row_data decode r)
              trace := pg.trace ++ [PgOp.insert t (convert_row_data decode r)] }
      exact ⟨[PgOp.insert t (convert_row_data decode r)] ++ tr, by simpa using htr⟩

lemma batchLoop_noFaults (decode : List Nat → Option String) (k : Row → Row)
    (t : String) (bs : Nat) (srcRows : List Row) (hbs : 0 < bs) :
    ∀ (fuel offset migrated_rows batchIdx : Nat) (pg : PgState),
      srcRows.length - offset < fuel → pg.committed = pg.pending →
      ∃ tr,
        batchLoop decode k noFaults t bs srcRows srcRows.length
            fuel offset migrated_rows batchIdx pg =
          Except.ok (migrated_rows + (srcRows.length - offset),
            { committed := (srcRows.drop offset).foldl
                (fun D row => insertCI k D (convert_row_data decode row)) pg.pending
              pending := (srcRows.drop offset).foldl
                (fun D row => insertCI k D (convert_row_data decode row)) pg.pending
              trace := pg.trace ++ tr }) := by
  intro fuel
  induction fuel with
  | zero => intro offset _ _ _ hf _; omega
  | succ fuel ih =>
    intro offset migrated_rows batchIdx pg hf hcp
    obtain ⟨pgc, pgp, pgtr⟩ := pg
    simp only at hcp
    subst hcp
    rw [batchLoop]
    by_cases ho : offset < srcRows.length
    · rw [if_pos ho]
      have hblen : ((srcRows.drop offset).take bs).length = min bs (srcRows.length - offset) := by
        rw [List.length_take, List.length_drop]
      have hne : ¬((srcRows.drop offset).take bs).isEmpty = true := by
        rw [List.isEmpty_iff, ← List.length_eq_zero]
        omega
      simp only [noFaults_fetchFails, noFaults_commitFails, Bool.false_eq_true, if_false,
        if_neg hne]
      obtain ⟨tr1, htr1⟩ := insertBatch_trace decode k noFaults t
        ((srcRows.drop offset).take bs) ⟨pgc, pgc, pgtr⟩
      obtain ⟨tr2, htr2⟩ := ih (offset + bs)
        (migrated_rows + ((srcRows.drop offset).take bs).length) (batchIdx + 1)
        { committed :=
            (insertBatch decode k noFaults t ⟨pgc, pgc, pgtr⟩ ((srcRows.drop offset).take bs)).pending
          pending :=
            (insertBatch decode k noFaults t ⟨pgc, pgc, pgtr⟩ ((srcRows.drop offset).take bs)).pending
          trace :=
            (insertBatch decode k noFaults t ⟨pgc, pgc, pgtr⟩ ((srcRows.drop offset).take bs)).trace ++
              [PgOp.commit] }
        (by omega) rfl
      rw [htr2]
      refine ⟨tr1 ++ [PgOp.commit] ++ tr2, ?_⟩
      have hsplit : (srcRows.drop offset).take bs ++ srcRows.drop (offset + bs) =
          srcRows.drop offset := by
        conv_rhs => rw [← List.take_append_drop bs (srcRows.drop offset)]
        rw [List.drop_drop, Nat.add_comm offset bs]
      have hnum : migrated_rows + ((srcRows.drop offset).take bs).length +
          (srcRows.length - (offset + bs)) = migrated_rows + (srcRows.length - offset) := by
        rw [hblen]
        omega
      simp only [insertBatch_pending_noFaults, hnum, htr1]
      rw [← List.foldl_append, hsplit]
      simp
    · rw [if_neg ho]
      have hdrop : srcRows.drop offset = [] := by
        rw [List.drop_eq_nil_iff]
        omega
      refine ⟨[], ?_⟩
      rw [hdrop]
      simp
      omega

lemma update_sequences_noFaults (cfg : Config) (t : String) (pks : List String)
    (pg : PgState) :
    update_sequences noFaults cfg t pks pg =
      if cfg.dry_run then pg
      else { pg with trace := pg.trace ++ pks.map (PgOp.setval t) } := by
  rw [update_sequences]
  rcases hpks : pks with _ | ⟨p, ps⟩
  · simp
  · rcases hdry : cfg.dry_run with _ | _
    · simp only [List.isEmpty_cons, Bool.false_or, hdry, if_false, Bool.false_eq_true]
      rw [← hpks]
      suffices h : ∀ (l : List String) (s : PgState),
          l.foldl (fun s pk =>
            if noFaults.setvalFails pk then s
            else { s with trace := s.trace ++ [PgOp.setval t pk] }) s =
            { s with trace := s.trace ++ l.map (PgOp.setval t) } by
        rw [h]
      intro l
      induction l with
      | nil => intro s; simp
      | cons q qs ihq =>
        intro s
        rw [List.foldl_cons, ihq]
        simp [noFaults]
    · simp [hdry]

lemma update_sequences_rows (f : Faults) (cfg : Config) (t : String) (pks : List String)
    (pg : PgState) :
    (update_sequences f cfg t pks pg).committed = pg.committed ∧
    (update_sequences f cfg t pks pg).pending = pg.pending := by
  rw [update_sequences]
  split
  · exact ⟨rfl, rfl⟩
  · suffices h : ∀ (l : List String) (s : PgState),
        (l.foldl (fun s pk =>
          if f.setvalFails pk then s
          else { s with trace := s.trace ++ [PgOp.setval t pk] }) s).committed = s.committed ∧
        (l.foldl (fun s pk =>
          if f.setvalFails pk then s
          else { s with trace := s.trace ++ [PgOp.setval t pk] }) s).pending = s.pending from
      h pks pg
    intro l
    induction l with
    | nil => intro s; exact ⟨rfl, rfl⟩
    | cons q qs ihq =>
      intro s
      rw [List.foldl_cons]
      rcases ihq (if f.setvalFails q then s else { s with trace := s.trace ++ [PgOp.setval t q] })
        with ⟨h1, h2⟩
      rw [h1, h2]
      split <;> exact ⟨rfl, rfl⟩

lemma migrate_table_success (decode : List Nat → Option String) (k : Row → Row)
    (cfg : Config) (t : String) (src : SourceTable) (pg : PgState) (st : Stats)
    (hbs : 0 < cfg.batch_size) (hdry : cfg.dry_run = false)
    (hrows : src.rows ≠ []) (hcp : pg.committed = pg.pending) :
    ∃ tr : List PgOp,
      migrate_table decode k noFaults cfg t src true pg st =
        (true,
         { st with
             tables_migrated := st.tables_migrated + 1
             total_rows := st.total_rows + src.rows.length },
         { committed := src.rows.foldl
             (fun D row => insertCI k D (convert_row_data decode row)) pg.pending
           pending := src.rows.foldl
             (fun D row => insertCI k D (convert_row_data decode row)) pg.pending
           trace := pg.trace ++ [PgOp.existsQuery t, PgOp.disableTriggers t] ++ tr ++
             [PgOp.enableTriggers t] ++ src.primary_keys.map (PgOp.setval t) }) := by
  obtain ⟨pgc, pgp, pgtr⟩ := pg
  simp only at hcp
  subst hcp
  have hlen : ¬(src.rows.length = 0) := by
    simpa [List.length_eq_zero] using hrows
  rw [migrate_table]
  simp only [noFaults_infoFails, noFaults_existsFails, noFaults_disableFails,
    noFaults_enableFails, Bool.false_eq_true, if_false, hdry, Bool.not_true,
    if_neg hlen]
  obtain ⟨tr, htr⟩ := batchLoop_noFaults decode k t cfg.batch_size src.rows hbs
    (src.rows.length + 1) 0 0 0
    ⟨pgc, pgc, pgtr ++ [PgOp.existsQuery t] ++ [PgOp.disableTriggers t]⟩
    (by omega) rfl
  rw [htr]
  dsimp only
  rw [update_sequences_noFaults, hdry]
  refine ⟨tr, ?_⟩
  simp [List.append_assoc]

lemma foldl_insertCI_mem_mono (k : Row → Row) (c : Row → Row) :
    ∀ (L : List Row) (D : List Row) (x : Row), x ∈ D →
      x ∈ L.foldl (fun D' r => insertCI k D' (c r)) D := by
  intro L
  induction L with
  | nil => intro D x hx; simpa using hx
  | cons r rs ih =>
    intro D x hx
    rw [List.foldl_cons]
    refine ih _ x ?_
    rw [insertCI]
    split
    · exact hx
    · exact List.mem_append_left _ hx

lemma foldl_insertCI_key_mem (k : Row → Row) (c : Row → Row) :
    ∀ (L : List Row) (D : List Row) (r : Row), r ∈ L →
      ∃ s ∈ L.foldl (fun D' r => insertCI k D' (c r)) D, k s = k (c r) := by
  intro L
  induction L with
  | nil => intro D r hr; simp at hr
  | cons q qs ih =>
    intro D r hr
    rw [List.foldl_cons]
    rcases List.mem_cons.mp hr with h | h
    · subst h
      rw [insertCI]
      split
      · rename_i hany
        obtain ⟨s, hs, hk⟩ := List.any_eq_true.mp hany
        exact ⟨s, foldl_insertCI_mem_mono k c qs _ s hs, eq_of_beq hk⟩
      · exact ⟨c r, foldl_insertCI_mem_mono k c qs _ (c r)
          (List.mem_append_right _ (by simp)), rfl⟩
    · exact ih _ r h

lemma foldl_insertCI_fixed (k : Row → Row) (c : Row → Row) :
    ∀ (L : List Row) (D : List Row), (∀ r ∈ L, ∃ s ∈ D, k s = k (c r)) →
      L.foldl (fun D' r => insertCI k D' (c r)) D = D := by
  intro L
  induction L with
  | nil => intro D _; rfl
  | cons q qs ih =>
    intro D hD
    rw [List.foldl_cons, insertCI, if_pos]
    · exact ih D fun r hr => hD r (List.mem_cons_of_mem q hr)
    · obtain ⟨s, hs, hk⟩ := hD q (List.mem_cons_self q qs)
      exact List.any_eq_true.mpr ⟨s, hs, beq_iff_eq.mpr hk⟩

lemma foldl_insertCI_idem (k : Row → Row) (c : Row → Row) (L : List Row) (D : List Row) :
    L.foldl (fun D' r => insertCI k D' (c r))
        (L.foldl (fun D' r => insertCI k D' (c r)) D) =
      L.foldl (fun D' r => insertCI k D' (c r)) D :=
  foldl_insertCI_fixed k c L _ fun r hr => foldl_insertCI_key_mem k c L D r hr

lemma migrate_table_empty (decode : List Nat → Option String) (k : Row → Row) (f : Faults)
    (cfg : Config) (t : String) (src : SourceTable) (destPresent : Bool)
    (pg : PgState) (st : Stats)
    (hrows : src.rows = []) (hinfo : f.infoFails = false) :
    migrate_table decode k f cfg t src destPresent pg st =
      (true, { st with tables_skipped := st.tables_skipped + 1 }, pg) := by
  rw [migrate_table]
  simp [hinfo, hrows]

/-- C9: `convert_row_data` is total, preserves arity and positional alignment:
nulls and non-bytes values pass through unchanged, and each bytes value is
replaced by its UTF-8 decoding, or kept unchanged when decoding fails. -/
theorem convert_row_data_spec (decode : List Nat → Option String) (row : List Val) :
    (convert_row_data decode row).length = row.length ∧
    ∀ i : Nat,
      (convert_row_data decode row)[i]? =
        (row[i]?).map (fun value =>
          match value with
          | Val.vnull => Val.vnull
          | Val.vbytes b =>
            match decode b with
            | some s => Val.vstr s
            | none => Val.vbytes b
          | v => v) := by
  rw [convert_row_data_eq_map]
  refine ⟨by simp, fun i => ?_⟩
  rw [List.getElem?_map]
  rcases h : row[i]? with _ | v
  · rfl
  · cases v <;> rfl

/-- C8: `get_tables` keeps exactly the source base tables passing the
inclusion filter (when one is given) and the exclusion filter (when one is
given), always dropping the fixed Django system tables, and the result is
alphabetically sorted. -/
theorem get_tables_spec (all_tables : List String)
    (include_tables exclude_tables : Option (List String))
    (hinc : include_tables ≠ some []) (hexc : exclude_tables ≠ some [])
    (hsorted : all_tables.Sorted (· ≤ ·)) :
    (∀ t, t ∈ get_tables all_tables include_tables exclude_tables ↔
      (t ∈ all_tables ∧
       (∀ l, include_tables = some l → t ∈ l) ∧
       (∀ l, exclude_tables = some l → t ∉ l) ∧
       t ∉ system_tables)) ∧
    (get_tables all_tables include_tables exclude_tables).Sorted (· ≤ ·) := by
  constructor
  · intro t
    rcases include_tables with _ | inc
    · rcases exclude_tables with _ | exc
      · simp [get_tables, List.mem_filter]
      · have hne : exc ≠ [] := fun h => hexc (by rw [h])
        simp [get_tables, List.mem_filter, List.isEmpty_eq_false.mpr hne]
        tauto
    · have hinc' : inc ≠ [] := fun h => hinc (by rw [h])
      rcases exclude_tables with _ | exc
      · simp [get_tables, List.mem_filter, List.isEmpty_eq_false.mpr hinc']
        tauto
      · have hexc' : exc ≠ [] := fun h => hexc (by rw [h])
        simp [get_tables, List.mem_filter, List.isEmpty_eq_false.mpr hinc',
          List.isEmpty_eq_false.mpr hexc']
        tauto
  · rcases include_tables with _ | inc <;> rcases exclude_tables with _ | exc <;>
      simp only [get_tables] <;>
      first
        | exact hsorted.filter _
        | (split <;> [exact hsorted.filter _; exact (hsorted.filter _).filter _])
        | (split <;>
            [skip; skip] <;>
            first
              | exact hsorted.filter _
              | (split <;>
                  first
                    | exact hsorted.filter _
                    | exact (hsorted.filter _).filter _
                    | exact ((hsorted.filter _).filter _).filter _))

/-! Claim theorems. -/

/-- C1 counterexample: non-preview copy of a two-row table into an existing
destination table, where the commit of the first batch raises.
`migrate_table` has disabled the destination triggers but returns through the
error path issuing only a rollback: no trigger re-enable appears in the
trace, refuting "re-enable unconditionally ... on every path". -/
theorem trigger_reenable_counterexample :
    PgOp.disableTriggers "t" ∈
      (migrate_table exDecode exKey exFaultCommit ⟨10, false⟩ "t" exSrc true exPg exSt).2.2.trace ∧
    PgOp.enableTriggers "t" ∉
      (migrate_table exDecode exKey exFaultCommit ⟨10, false⟩ "t" exSrc true exPg exSt).2.2.trace ∧
    (migrate_table exDecode exKey exFaultCommit ⟨10, false⟩ "t" exSrc true exPg exSt).1 = false := by
  decide

/-- C1 (amended): in non-preview mode, when the copy of a nonempty table into
an existing destination table raises no exception, the destination triggers
are re-enabled before `migrate_table` returns; on the error path the handler
only rolls back, without re-enabling (shown by the counterexample). -/
theorem trigger_reenable_on_success (decode : List Nat → Option String) (k : Row → Row)
    (cfg : Config) (t : String) (src : SourceTable) (pg : PgState) (st : Stats)
    (hbs : 0 < cfg.batch_size) (hdry : cfg.dry_run = false)
    (hrows : src.rows ≠ []) (hcp : pg.committed = pg.pending) :
    (migrate_table decode k noFaults cfg t src true pg st).1 = true ∧
    PgOp.enableTriggers t ∈
      (migrate_table decode k noFaults cfg t src true pg st).2.2.trace := by
  obtain ⟨tr, htr⟩ := migrate_table_success decode k cfg t src pg st hbs hdry hrows hcp
  rw [htr]
  exact ⟨rfl, by simp⟩

/-- Witness for `trigger_reenable_on_success` at a concrete input. -/
theorem trigger_reenable_on_success_witness :
    (0 < (⟨1, false⟩ : Config).batch_size ∧ (⟨1, false⟩ : Config).dry_run = false ∧
     exSrc.rows ≠ [] ∧ exPg.committed = exPg.pending) ∧
    ((migrate_table exDecode exKey noFaults ⟨1, false⟩ "t" exSrc true exPg exSt).1 = true ∧
     PgOp.enableTriggers "t" ∈
       (migrate_table exDecode exKey noFaults ⟨1, false⟩ "t" exSrc true exPg exSt).2.2.trace) :=
  ⟨⟨by decide, rfl, by decide, rfl⟩,
   trigger_reenable_on_success exDecode exKey ⟨1, false⟩ "t" exSrc exPg exSt
     (by decide) rfl (by decide) rfl⟩

/-- C4: a source table with zero rows is classified as skipped (not
migrated), the destination state is completely untouched, and
`migrate_table` returns success. -/
theorem empty_table_skipped (decode : List Nat → Option String) (k : Row → Row)
    (f : Faults) (cfg : Config) (t : String) (src : SourceTable) (destPresent : Bool)
    (pg : PgState) (st : Stats)
    (hrows : src.rows = []) (hinfo : f.infoFails = false) :
    migrate_table decode k f cfg t src destPresent pg st =
      (true, { st with tables_skipped := st.tables_skipped + 1 }, pg) :=
  migrate_table_empty decode k f cfg t src destPresent pg st hrows hinfo

/-- Witness for `empty_table_skipped` at a concrete input. -/
theorem empty_table_skipped_witness :
    (exSrcEmpty.rows = [] ∧ noFaults.infoFails = false) ∧
    migrate_table exDecode exKey noFaults ⟨1000, false⟩ "t" exSrcEmpty true exPg exSt =
      (true, { exSt with tables_skipped := exSt.tables_skipped + 1 }, exPg) :=
  ⟨⟨rfl, rfl⟩,
   empty_table_skipped exDecode exKey noFaults ⟨1000, false⟩ "t" exSrcEmpty true exPg exSt
     rfl rfl⟩

/-- C6: with a stable source order, copying with batch size 1 and copying
with batch size equal to the full row count produce identical final
destination row sets (committed and pending). -/
theorem batch_size_irrelevant (decode : List Nat → Option String) (k : Row → Row)
    (t : String) (src : SourceTable) (pg : PgState) (st st' : Stats)
    (hrows : src.rows ≠ []) (hcp : pg.committed = pg.pending) :
    (migrate_table decode k noFaults ⟨1, false⟩ t src true pg st).2.2.committed =
      (migrate_table decode k noFaults ⟨src.rows.length, false⟩ t src true pg st').2.2.committed ∧
    (migrate_table decode k noFaults ⟨1, false⟩ t src true pg st).2.2.pending =
      (migrate_table decode k noFaults ⟨src.rows.length, false⟩ t src true pg st').2.2.pending := by
  obtain ⟨tr1, h1⟩ := migrate_table_success decode k ⟨1, false⟩ t src pg st
    (by decide) rfl hrows hcp
  obtain ⟨tr2, h2⟩ := migrate_table_success decode k ⟨src.rows.length, false⟩ t src pg st'
    (List.length_pos.mpr hrows) rfl hrows hcp
  rw [h1, h2]
  exact ⟨rfl, rfl⟩

/-- Witness for `batch_size_irrelevant` at a concrete input. -/
theorem batch_size_irrelevant_witness :
    (exSrc.rows ≠ [] ∧ exPg.committed = exPg.pending) ∧
    ((migrate_table exDecode exKey noFaults ⟨1, false⟩ "t" exSrc true exPg exSt).2.2.committed =
      (migrate_table exDecode exKey noFaults ⟨exSrc.rows.length, false⟩ "t" exSrc true exPg exSt).2.2.committed ∧
     (migrate_table exDecode exKey noFaults ⟨1, false⟩ "t" exSrc true exPg exSt).2.2.pending =
      (migrate_table exDecode exKey noFaults ⟨exSrc.rows.length, false⟩ "t" exSrc true exPg exSt).2.2.pending) :=
  ⟨⟨by decide, rfl⟩,
   batch_size_irrelevant exDecode exKey "t" exSrc exPg exSt exSt (by decide) rfl⟩

/-- C7 counterexample: a two-row table where the insert of the second row
raises.  The per-row failure is caught and the row is not copied (only one
row reaches the destination), yet the run statistics record 2 migrated rows
— the recorded count is the number of fetched rows, not the number actually
copied. -/
theorem migrated_count_counterexample :
    (migrate_table exDecode exKey exFaultIns ⟨10, false⟩ "t" exSrc true exPg exSt).1 = true ∧
    (migrate_table exDecode exKey exFaultIns ⟨10, false⟩ "t" exSrc true exPg exSt).2.1.total_rows = 2 ∧
    (migrate_table exDecode exKey exFaultIns ⟨10, false⟩ "t" exSrc true exPg exSt).2.2.committed =
      [exRow1] := by
  decide

/-- C7 (amended): for a successfully copied table the recorded row count
equals the number of rows fetched from the source (the full source row
count), regardless of how many rows the conflict-ignoring insert actually
added to the destination. -/
theorem migrated_count_records_fetched (decode : List Nat → Option String) (k : Row → Row)
    (cfg : Config) (t : String) (src : SourceTable) (pg : PgState) (st : Stats)
    (hbs : 0 < cfg.batch_size) (hdry : cfg.dry_run = false)
    (hrows : src.rows ≠ []) (hcp : pg.committed = pg.pending) :
    (migrate_table decode k noFaults cfg t src true pg st).1 = true ∧
    (migrate_table decode k noFaults cfg t src true pg st).2.1.total_rows =
      st.total_rows + src.rows.length := by
  obtain ⟨tr, htr⟩ := migrate_table_success decode k cfg t src pg st hbs hdry hrows hcp
  rw [htr]
  exact ⟨rfl, rfl⟩

/-- Witness for `migrated_count_records_fetched` at a concrete input. -/
theorem migrated_count_records_fetched_witness :
    (0 < (⟨2, false⟩ : Config).batch_size ∧ (⟨2, false⟩ : Config).dry_run = false ∧
     exSrc.rows ≠ [] ∧ exPg.committed = exPg.pending) ∧
    ((migrate_table exDecode exKey noFaults ⟨2, false⟩ "t" exSrc true exPg exSt).1 = true ∧
     (migrate_table exDecode exKey noFaults ⟨2, false⟩ "t" exSrc true exPg exSt).2.1.total_rows =
       exSt.total_rows + exSrc.rows.length) :=
  ⟨⟨by decide, rfl, by decide, rfl⟩,
   migrated_count_records_fetched exDecode exKey ⟨2, false⟩ "t" exSrc exPg exSt
     (by decide) rfl (by decide) rfl⟩

/-- C2: running the full copy twice on the same source/destination pair
leaves the destination row set identical to running it once: the second run
returns success and, under the destination uniqueness constraint `k`, adds
no row whose key is already present. -/
theorem copy_idempotent (decode : List Nat → Option String) (k : Row → Row)
    (cfg : Config) (t : String) (src : SourceTable) (pg : PgState) (st : Stats)
    (r1 r2 : Bool) (st1 st2 : Stats) (pg1 pg2 : PgState)
    (hbs : 0 < cfg.batch_size) (hdry : cfg.dry_run = false)
    (hcp : pg.committed = pg.pending)
    (h1 : migrate_table decode k noFaults cfg t src true pg st = (r1, st1, pg1))
    (h2 : migrate_table decode k noFaults cfg t src true pg1 st1 = (r2, st2, pg2)) :
    pg2.committed = pg1.committed ∧ pg2.pending = pg1.pending ∧ r2 = true := by
  by_cases hrows : src.rows = []
  · rw [migrate_table_empty decode k noFaults cfg t src true pg st hrows rfl] at h1
    simp only [Prod.mk.injEq] at h1
    obtain ⟨h1r, h1s, h1p⟩ := h1
    subst h1s
    subst h1p
    rw [migrate_table_empty decode k noFaults cfg t src true pg _ hrows rfl] at h2
    simp only [Prod.mk.injEq] at h2
    obtain ⟨h2r, h2s, h2p⟩ := h2
    subst h2s
    subst h2p
    exact ⟨rfl, rfl, h2r.symm⟩
  · obtain ⟨tr1, hrun1⟩ := migrate_table_success decode k cfg t src pg st hbs hdry hrows hcp
    rw [hrun1] at h1
    simp only [Prod.mk.injEq] at h1
    obtain ⟨h1r, h1s, h1p⟩ := h1
    subst h1s
    subst h1p
    obtain ⟨tr2, hrun2⟩ := migrate_table_success decode k cfg t src
      { committed := src.rows.foldl
          (fun D row => insertCI k D (convert_row_data decode row)) pg.pending
        pending := src.rows.foldl
          (fun D row => insertCI k D (convert_row_data decode row)) pg.pending
        trace := pg.trace ++ [PgOp.existsQuery t, PgOp.disableTriggers t] ++ tr1 ++
          [PgOp.enableTriggers t] ++ src.primary_keys.map (PgOp.setval t) }
      { st with
          tables_migrated := st.tables_migrated + 1
          total_rows := st.total_rows + src.rows.length }
      hbs hdry hrows rfl
    rw [hrun2] at h2
    simp only [Prod.mk.injEq] at h2
    obtain ⟨h2r, h2s, h2p⟩ := h2
    subst h2s
    subst h2p
    refine ⟨?_, ?_, h2r.symm⟩
    · exact foldl_insertCI_idem k (convert_row_data decode) src.rows pg.pending
    · exact foldl_insertCI_idem k (convert_row_data decode) src.rows pg.pending

/-- Witness for `copy_idempotent` at a concrete input. -/
theorem copy_idempotent_witness :
    (0 < (⟨1, false⟩ : Config).batch_size ∧ (⟨1, false⟩ : Config).dry_run = false ∧
     exPg.committed = exPg.pending ∧
     migrate_table exDecode exKey noFaults ⟨1, false⟩ "t" exSrc true exPg exSt =
       ((migrate_table exDecode exKey noFaults ⟨1, false⟩ "t" exSrc true exPg exSt).1,
        (migrate_table exDecode exKey noFaults ⟨1, false⟩ "t" exSrc true exPg exSt).2.1,
        (migrate_table exDecode exKey noFaults ⟨1, false⟩ "t" exSrc true exPg exSt).2.2)) ∧
    ((migrate_table exDecode exKey noFaults ⟨1, false⟩ "t" exSrc true
        (migrate_table exDecode exKey noFaults ⟨1, false⟩ "t" exSrc true exPg exSt).2.2
        (migrate_table exDecode exKey noFaults ⟨1, false⟩ "t" exSrc true exPg exSt).2.1).2.2.committed =
      (migrate_table exDecode exKey noFaults ⟨1, false⟩ "t" exSrc true exPg exSt).2.2.committed ∧
     (migrate_table exDecode exKey noFaults ⟨1, false⟩ "t" exSrc true
        (migrate_table exDecode exKey noFaults ⟨1, false⟩ "t" exSrc true exPg exSt).2.2
        (migrate_table exDecode exKey noFaults ⟨1, false⟩ "t" exSrc true exPg exSt).2.1).1 = true) := by
  refine ⟨⟨by decide, rfl, rfl, rfl⟩, ?_⟩
  obtain ⟨hc, hp, hr⟩ := copy_idempotent exDecode exKey ⟨1, false⟩ "t" exSrc exPg exSt
    (migrate_table exDecode exKey noFaults ⟨1, false⟩ "t" exSrc true exPg exSt).1
    (migrate_table exDecode exKey noFaults ⟨1, false⟩ "t" exSrc true
      (migrate_table exDecode exKey noFaults ⟨1, false⟩ "t" exSrc true exPg exSt).2.2
      (migrate_table exDecode exKey noFaults ⟨1, false⟩ "t" exSrc true exPg exSt).2.1).1
    (migrate_table exDecode exKey noFaults ⟨1, false⟩ "t" exSrc true exPg exSt).2.1
    (migrate_table exDecode exKey noFaults ⟨1, false⟩ "t" exSrc true
      (migrate_table exDecode exKey noFaults ⟨1, false⟩ "t" exSrc true exPg exSt).2.2
      (migrate_table exDecode exKey noFaults ⟨1, false⟩ "t" exSrc true exPg exSt).2.1).2.1
    (migrate_table exDecode exKey noFaults ⟨1, false⟩ "t" exSrc true exPg exSt).2.2
    (migrate_table exDecode exKey noFaults ⟨1, false⟩ "t" exSrc true
      (migrate_table exDecode exKey noFaults ⟨1, false⟩ "t" exSrc true exPg exSt).2.2
      (migrate_table exDecode exKey noFaults ⟨1, false⟩ "t" exSrc true exPg exSt).2.1).2.2
    (by decide) rfl rfl rfl rfl
  exact ⟨hc, hr⟩

/-- C5: in non-preview mode, a nonempty source table whose name is absent
from the destination catalog is classified as skipped (not failed), the only
destination operation issued is the catalog read, `migrate_table` returns
failure without raising, and the run goes on to process the remaining
tables from the updated state. -/
theorem missing_dest_skipped (decode : List Nat → Option String) (k : Row → Row)
    (f : Faults) (cfg : Config) (t : String) (src : SourceTable)
    (pg : PgState) (st : Stats) (rest : List TableJob)
    (hdry : cfg.dry_run = false) (hrows : src.rows ≠ [])
    (hinfo : f.infoFails = false) (hex : f.existsFails = false) :
    migrate_table decode k f cfg t src false pg st =
      (false, { st with tables_skipped := st.tables_skipped + 1 },
       { pg with trace := pg.trace ++ [PgOp.existsQuery t] }) ∧
    runTables decode k f cfg ({ name := t, src := src, destPresent := false } :: rest) pg st =
      runTables decode k f cfg rest
        { pg with trace := pg.trace ++ [PgOp.existsQuery t] }
        { st with tables_skipped := st.tables_skipped + 1 } := by
  have hlen : ¬(src.rows.length = 0) := by
    simpa [List.length_eq_zero] using hrows
  have hmain : migrate_table decode k f cfg t src false pg st =
      (false, { st with tables_skipped := st.tables_skipped + 1 },
       { pg with trace := pg.trace ++ [PgOp.existsQuery t] }) := by
    rw [migrate_table]
    simp [hinfo, hex, hdry, hlen]
  refine ⟨hmain, ?_⟩
  simp only [runTables, List.foldl_cons, hmain]

/-- Witness for `missing_dest_skipped` at a concrete input. -/
theorem missing_dest_skipped_witness :
    ((⟨1000, false⟩ : Config).dry_run = false ∧ exSrc.rows ≠ [] ∧
     noFaults.infoFails = false ∧ noFaults.existsFails = false) ∧
    (migrate_table exDecode exKey noFaults ⟨1000, false⟩ "t" exSrc false exPg exSt =
      (false, { exSt with tables_skipped := exSt.tables_skipped + 1 },
       { exPg with trace := exPg.trace ++ [PgOp.existsQuery "t"] }) ∧
     runTables exDecode exKey noFaults ⟨1000, false⟩
        ({ name := "t", src := exSrc, destPresent := false } :: []) exPg exSt =
      runTables exDecode exKey noFaults ⟨1000, false⟩ []
        { exPg with trace := exPg.trace ++ [PgOp.existsQuery "t"] }
        { exSt with tables_skipped := exSt.tables_skipped + 1 }) :=
  ⟨⟨rfl, by decide, rfl, rfl⟩,
   missing_dest_skipped exDecode exKey noFaults ⟨1000, false⟩ "t" exSrc exPg exSt []
     rfl (by decide) rfl rfl⟩

/-- C3: in preview (dry-run) mode the destination connection state is left
completely unchanged for every source table and every fault scenario — no
insert, trigger alteration, sequence update, commit or rollback — and, when
the source row-count query succeeds, the call returns success and the
would-migrate row count added to the statistics equals the true source row
count. -/
theorem dry_run_no_writes (decode : List Nat → Option String) (k : Row → Row)
    (f : Faults) (cfg : Config) (t : String) (src : SourceTable) (destPresent : Bool)
    (pg : PgState) (st : Stats) (hdry : cfg.dry_run = true) :
    (migrate_table decode k f cfg t src destPresent pg st).2.2 = pg ∧
    (f.infoFails = false →
      (migrate_table decode k f cfg t src destPresent pg st).1 = true ∧
      (migrate_table decode k f cfg t src destPresent pg st).2.1.total_rows =
        st.total_rows + src.rows.length) := by
  rw [migrate_table]
  rcases hinfo : f.infoFails with _ | _
  · simp only [hinfo, Bool.false_eq_true, if_false]
    by_cases hlen : src.rows.length = 0
    · rw [if_pos hlen]
      exact ⟨rfl, fun _ => ⟨rfl, by simp [hlen]⟩⟩
    · rw [if_neg hlen, if_pos hdry]
      exact ⟨rfl, fun _ => ⟨rfl, rfl⟩⟩
  · refine ⟨?_, fun h => absurd h (by decide)⟩
    simp [hinfo, hdry]

/-- Witness for `dry_run_no_writes` at a concrete input. -/
theorem dry_run_no_writes_witness :
    ((⟨1000, true⟩ : Config).dry_run = true) ∧
    ((migrate_table exDecode exKey noFaults ⟨1000, true⟩ "t" exSrc true exPg exSt).2.2 = exPg ∧
     (noFaults.infoFails = false →
       (migrate_table exDecode exKey noFaults ⟨1000, true⟩ "t" exSrc true exPg exSt).1 = true ∧
       (migrate_table exDecode exKey noFaults ⟨1000, true⟩ "t" exSrc true exPg exSt).2.1.total_rows =
         exSt.total_rows + exSrc.rows.length)) :=
  ⟨rfl, dry_run_no_writes exDecode exKey noFaults ⟨1000, true⟩ "t" exSrc true exPg exSt rfl⟩

lemma migrate_table_classification (decode : List Nat → Option String) (k : Row → Row)
    (f : Faults) (cfg : Config) (t : String) (src : SourceTable) (present : Bool)
    (pg : PgState) (st : Stats) :
    ((migrate_table decode k f cfg t src present pg st).2.1.tables_migrated =
        st.tables_migrated + 1 ∧
     (migrate_table decode k f cfg t src present pg st).2.1.tables_skipped =
        st.tables_skipped ∧
     (migrate_table decode k f cfg t src present pg st).2.1.failed_tables =
        st.failed_tables) ∨
    ((migrate_table decode k f cfg t src present pg st).2.1.tables_migrated =
        st.tables_migrated ∧
     (migrate_table decode k f cfg t src present pg st).2.1.tables_skipped =
        st.tables_skipped + 1 ∧
     (migrate_table decode k f cfg t src present pg st).2.1.failed_tables =
        st.failed_tables) ∨
    ((migrate_table decode k f cfg t src present pg st).2.1.tables_migrated =
        st.tables_migrated ∧
     (migrate_table decode k f cfg t src present pg st).2.1.tables_skipped =
        st.tables_skipped ∧
     (migrate_table decode k f cfg t src present pg st).2.1.failed_tables =
        st.failed_tables ++ [t]) := by
  rw [migrate_table]
  dsimp only
  split
  · right; right; exact ⟨rfl, rfl, rfl⟩
  · split
    · right; left; exact ⟨rfl, rfl, rfl⟩
    · split
      · left; exact ⟨rfl, rfl, rfl⟩
      · split
        · right; right; exact ⟨rfl, rfl, rfl⟩
        · split
          · right; left; exact ⟨rfl, rfl, rfl⟩
          · split
            · right; right; exact ⟨rfl, rfl, rfl⟩
            · split
              · right; right; exact ⟨rfl, rfl, rfl⟩
              · split
                · right; right; exact ⟨rfl, rfl, rfl⟩
                · left; exact ⟨rfl, rfl, rfl⟩

/-- C10: every `migrate_table` call records exactly one classification
outcome — the migrated counter is incremented, or the skipped counter is
incremented, or the table name is appended to the failed-tables list, the
other fields staying unchanged — and consequently, over a whole run,
migrated + skipped + failed grows by exactly the number of tables
processed. -/
theorem classification_exactly_one (decode : List Nat → Option String) (k : Row → Row)
    (f : Faults) (cfg : Config) :
    (∀ (t : String) (src : SourceTable) (present : Bool) (pg : PgState) (st : Stats),
      ((migrate_table decode k f cfg t src present pg st).2.1.tables_migrated =
          st.tables_migrated + 1 ∧
       (migrate_table decode k f cfg t src present pg st).2.1.tables_skipped =
          st.tables_skipped ∧
       (migrate_table decode k f cfg t src present pg st).2.1.failed_tables =
          st.failed_tables) ∨
      ((migrate_table decode k f cfg t src present pg st).2.1.tables_migrated =
          st.tables_migrated ∧
       (migrate_table decode k f cfg t src present pg st).2.1.tables_skipped =
          st.tables_skipped + 1 ∧
       (migrate_table decode k f cfg t src present pg st).2.1.failed_tables =
          st.failed_tables) ∨
      ((migrate_table decode k f cfg t src present pg st).2.1.tables_migrated =
          st.tables_migrated ∧
       (migrate_table decode k f cfg t src present pg st).2.1.tables_skipped =
          st.tables_skipped ∧
       (migrate_table decode k f cfg t src present pg st).2.1.failed_tables =
          st.failed_tables ++ [t])) ∧
    (∀ (jobs : List TableJob) (pg : PgState) (st : Stats),
      (runTables decode k f cfg jobs pg st).2.tables_migrated +
        (runTables decode k f cfg jobs pg st).2.tables_skipped +
        (runTables decode k f cfg jobs pg st).2.failed_tables.length =
      st.tables_migrated + st.tables_skipped + st.failed_tables.length + jobs.length) := by
  refine ⟨fun t src present pg st =>
    migrate_table_classification decode k f cfg t src present pg st, ?_⟩
  intro jobs
  induction jobs with
  | nil =>
    intro pg st
    simp [runTables]
  | cons j js ih =>
    intro pg st
    have hstep : runTables decode k f cfg (j :: js) pg st =
        runTables decode k f cfg js
          (migrate_table decode k f cfg j.name j.src j.destPresent pg st).2.2
          (migrate_table decode k f cfg j.name j.src j.destPresent pg st).2.1 := by
      simp only [runTables, List.foldl_cons]
    rw [hstep, ih]
    rcases migrate_table_classification decode k f cfg j.name j.src j.destPresent pg st with
      ⟨h1, h2, h3⟩ | ⟨h1, h2, h3⟩ | ⟨h1, h2, h3⟩ <;>
    rw [h1, h2, h3] <;>
    simp only [List.length_cons, List.length_append, List.length_nil] <;>
    omega

/-- Witness for `get_tables_spec` at a concrete input. -/
theorem get_tables_spec_witness :
    ((some ["a", "m"] : Option (List String)) ≠ some [] ∧
     (some ["m"] : Option (List String)) ≠ some [] ∧
     (["a", "django_session", "m"] : List String).Sorted (· ≤ ·)) ∧
    ((∀ t, t ∈ get_tables ["a", "django_session", "m"] (some ["a", "m"]) (some ["m"]) ↔
       (t ∈ (["a", "django_session", "m"] : List String) ∧
        (∀ l, (some ["a", "m"] : Option (List String)) = some l → t ∈ l) ∧
        (∀ l, (some ["m"] : Option (List String)) = some l → t ∉ l) ∧
        t ∉ system_tables)) ∧
     (get_tables ["a", "django_session", "m"] (some ["a", "m"]) (some ["m"])).Sorted (· ≤ ·)) :=
  ⟨⟨by decide, by decide, by
      simp only [List.sorted_cons, List.forall_mem_cons, List.forall_mem_nil,
        List.sorted_nil, and_true, true_and, String.le_iff_toList_le]
      decide⟩,
   get_tables_spec ["a", "django_session", "m"] (some ["a", "m"]) (some ["m"])
     (by decide) (by decide) (by
      simp only [List.sorted_cons, List.forall_mem_cons, List.forall_mem_nil,
        List.sorted_nil, and_true, true_and, String.le_iff_toList_le]
      decide)⟩

end MigrateData
